import Mathlib

/-!
Shallow embedding of the agent-orchestration core of the disease-surveillance
repository, src/backend/agents/agent_strategies.py: the selection strategy
routing queries through agent pipelines, and the termination strategy that
decides when a conversation stops.  Python strings are modelled as lists of
characters, the mutable strategy objects as explicit state passed in and out.
-/

/-- Python strings, modelled as lists of Unicode characters. -/
abbrev Str := List Char

/-- Character list of a Lean string literal, used to transcribe the Python
string literals of the source. -/
def str (s : String) : Str := s.data

/-- Python str.lower, modelled by ASCII case mapping; every literal the
source compares against is ASCII. -/
def strLower (s : Str) : Str := s.map Char.toLower

/-- Python substring containment, needle in hay. -/
def containsSub (needle : Str) : Str → Bool
  | [] => needle.isPrefixOf []
  | c :: t => needle.isPrefixOf (c :: t) || containsSub needle t

/-- An agent as the strategy code sees it: an opaque object carrying a name.
The payload field keeps distinct agent objects with equal names apart, the
way distinct Python objects are. -/
structure Agent where
  name : Str
  payload : Nat
deriving DecidableEq

/-- Lookup in the dict agent_map keyed on agent.name: a later agent with the
same name overwrites an earlier one, so get returns the last match. -/
def agentMapGet (agents : List Agent) (name : Str) : Option Agent :=
  match agents with
  | [] => none
  | a :: rest =>
    match agentMapGet rest name with
    | some b => some b
    | none => if a.name = name then some a else none

/-- The structured author marker the source builds with an f-string:
the agent name followed by " >". -/
def marker (name : Str) : Str := name ++ str " >"

/-- A message is user-authored when its content starts with no known agent
marker (lines 36-39 of agent_strategies.py). -/
def is_user_message (agents : List Agent) (content : Str) : Bool :=
  !(agents.any fun a => (marker a.name).isPrefixOf content)

/-- Keyword list for anomaly queries (line 61). -/
def anomaly_keywords : List Str :=
  [str "anomaly", str "anomalies", str "unusual", str "pattern",
   str "detect", str "abnormal", str "spike"]

/-- Keyword list for prediction queries (line 62). -/
def prediction_keywords : List Str :=
  [str "predict", str "forecast", str "spread", str "outbreak",
   str "projection", str "future", str "weeks"]

/-- Keyword list for alert queries (line 63). -/
def alert_keywords : List Str :=
  [str "alert", str "warning", str "notify", str "notification",
   str "urgent", str "emergency"]

/-- Keyword list for data-collection queries (line 64). -/
def data_keywords : List Str :=
  [str "data", str "collect", str "sources", str "monitor",
   str "track", str "gather"]

/-- Keyword list for report queries (line 65). -/
def report_keywords : List Str :=
  [str "report", str "summary", str "comprehensive", str "analysis",
   str "assessment"]

/-- The breadth qualifiers of the comprehensive branch (line 68). -/
def full_words : List Str :=
  [str "full", str "complete", str "comprehensive", str "all"]

/-- Python any of word in query for word in words. -/
def hasKeyword (words : List Str) (q : Str) : Bool :=
  words.any fun w => containsSub w q

/-- The 5-stage comprehensive pipeline (lines 71-77). -/
def comprehensive_sequence : List Str :=
  [str "DATA_COLLECTION_AGENT", str "ANOMALY_DETECTION_AGENT",
   str "PREDICTION_AGENT", str "ALERT_AGENT", str "REPORTING_AGENT"]

/-- The prediction pipeline (lines 82-87). -/
def prediction_sequence : List Str :=
  [str "DATA_COLLECTION_AGENT", str "ANOMALY_DETECTION_AGENT",
   str "PREDICTION_AGENT", str "REPORTING_AGENT"]

/-- The anomaly pipeline (lines 92-96). -/
def anomaly_sequence : List Str :=
  [str "DATA_COLLECTION_AGENT", str "ANOMALY_DETECTION_AGENT",
   str "REPORTING_AGENT"]

/-- The data-collection pipeline (lines 101-104). -/
def data_sequence : List Str :=
  [str "DATA_COLLECTION_AGENT", str "REPORTING_AGENT"]

/-- The alert pipeline (lines 109-115). -/
def alert_sequence : List Str :=
  [str "DATA_COLLECTION_AGENT", str "ANOMALY_DETECTION_AGENT",
   str "PREDICTION_AGENT", str "ALERT_AGENT", str "REPORTING_AGENT"]

/-- The mutable state of SurveillanceSelectionStrategy: its agent_sequence
field, initialised to the empty list. -/
structure SurveillanceSelectionStrategy where
  agent_sequence : List Str
deriving DecidableEq

/-- The state set up by the constructor: an empty agent_sequence. -/
def SurveillanceSelectionStrategy.init : SurveillanceSelectionStrategy := ⟨[]⟩

/-- Python list.index restricted to first occurrence; none models the
ValueError raised when the element is absent. -/
def pyIndex (x : Str) : List Str → Option Nat
  | [] => none
  | y :: t => if y = x then some 0 else (pyIndex x t).map (· + 1)

/-- _route_initial_query (lines 48-119).  The method mutates
self.agent_sequence and returns an agent; here it returns the pair of the
returned agent and the updated state.  Note the fallback branch of the
source (line 119) returns without assigning agent_sequence, so the state is
returned unchanged there. -/
def route_initial_query (self : SurveillanceSelectionStrategy) (query : Str)
    (agents : List Agent) : Option Agent × SurveillanceSelectionStrategy :=
  let query_lower := strLower query
  if hasKeyword full_words query_lower &&
      hasKeyword (prediction_keywords ++ report_keywords) query_lower then
    (agentMapGet agents (str "DATA_COLLECTION_AGENT"), ⟨comprehensive_sequence⟩)
  else if hasKeyword prediction_keywords query_lower then
    (agentMapGet agents (str "DATA_COLLECTION_AGENT"), ⟨prediction_sequence⟩)
  else if hasKeyword anomaly_keywords query_lower then
    (agentMapGet agents (str "DATA_COLLECTION_AGENT"), ⟨anomaly_sequence⟩)
  else if hasKeyword data_keywords query_lower then
    (agentMapGet agents (str "DATA_COLLECTION_AGENT"), ⟨data_sequence⟩)
  else if hasKeyword alert_keywords query_lower then
    (agentMapGet agents (str "DATA_COLLECTION_AGENT"), ⟨alert_sequence⟩)
  else
    (agentMapGet agents (str "ASSISTANT_AGENT"), self)

/-- _route_agent_response (lines 121-153).  The loop over agent_map keys
picking the first marker match is List.find? over the agents; Python's
falsiness test on current_agent also catches the empty-string name; the
bounds-checked read of the next sequence entry is the optional index.  The
history parameter of the source method is never read in its body. -/
def route_agent_response (self : SurveillanceSelectionStrategy) (response : Str)
    (agents : List Agent) (_history : List Str) : Option Agent :=
  let current_agent :=
    (agents.find? fun a => (marker a.name).isPrefixOf response).map Agent.name
  match current_agent with
  | none => none
  | some ca =>
    if ca = [] ∨ self.agent_sequence = [] then none
    else
      match pyIndex ca self.agent_sequence with
      | none => none
      | some current_index =>
        match self.agent_sequence[current_index + 1]? with
        | some next_agent_name => agentMapGet agents next_agent_name
        | none => none

/-- SurveillanceSelectionStrategy.next (lines 15-46), returning the chosen
agent together with the updated strategy state. -/
def SurveillanceSelectionStrategy.next (self : SurveillanceSelectionStrategy)
    (agents : List Agent) (history : List Str) :
    Option Agent × SurveillanceSelectionStrategy :=
  match history.getLast? with
  | none => (none, self)
  | some message_content =>
    if is_user_message agents message_content then
      route_initial_query self message_content agents
    else
      (route_agent_response self message_content agents history, self)

/-- The mutable state of SurveillanceTerminationStrategy (lines 159-167). -/
structure SurveillanceTerminationStrategy where
  max_iterations : Nat
  iteration_count : Nat
  terminal_agents : List Str
deriving DecidableEq

/-- The state set up by the constructor for a given maximum. -/
def SurveillanceTerminationStrategy.init (max_iterations : Nat) :
    SurveillanceTerminationStrategy :=
  ⟨max_iterations, 0, [str "REPORTING_AGENT", str "ASSISTANT_AGENT"]⟩

/-- The default-constructed termination strategy, max_iterations 10. -/
def defaultTermination : SurveillanceTerminationStrategy :=
  SurveillanceTerminationStrategy.init 10

/-- The completion indicators (lines 198-205).  The fourth entry transcribes
the exact four characters stored in the source file, a mojibake rendering of
a report emoji. -/
def completion_indicators : List Str :=
  [str "report generated successfully", str "analysis complete",
   str "assessment complete", str "ðŸ“„", str "download url", str "report id"]

/-- should_terminate (lines 169-211), returning the decision together with
the updated strategy state (the counter increments on every call). -/
def should_terminate (self : SurveillanceTerminationStrategy) (agent : Agent)
    (history : List Str) : Bool × SurveillanceTerminationStrategy :=
  let stepped : SurveillanceTerminationStrategy :=
    ⟨self.max_iterations, self.iteration_count + 1, self.terminal_agents⟩
  if stepped.max_iterations ≤ stepped.iteration_count then (true, stepped)
  else if stepped.terminal_agents.contains agent.name then (true, stepped)
  else
    match history.getLast? with
    | none => (false, stepped)
    | some last_message =>
      if completion_indicators.any
          (fun ind => containsSub ind (strLower last_message)) then
        (true, stepped)
      else (false, stepped)

/-- A run of consecutive should_terminate calls: each call is fed one
acting agent and the history the driver presents, and threads the state. -/
def run_should_terminate (self : SurveillanceTerminationStrategy) :
    List (Agent × List Str) → List Bool
  | [] => []
  | (a, h) :: rest =>
    let r := should_terminate self a h
    r.1 :: run_should_terminate r.2 rest

/-- The marker suffix has length two. -/
theorem str_sep_length : (str " >").length = 2 := rfl

/-- containsSub decides substring containment. -/
theorem containsSub_iff (n h : Str) : containsSub n h = true ↔ n <:+: h := by
  induction h with
  | nil => simp [containsSub, List.isPrefixOf_iff_prefix]
  | cons c t ih =>
    simp [containsSub, List.isPrefixOf_iff_prefix, ih, List.infix_cons_iff]

/-- Two marker-tagged names that both open the same content are equal,
provided the longer one does not itself contain the marker separator. -/
theorem marker_unamb_le (n1 n2 c : Str)
    (h2 : ¬ (str " >") <:+: n2) (hle : n1.length ≤ n2.length)
    (p1 : (n1 ++ str " >") <+: c) (p2 : (n2 ++ str " >") <+: c) :
    n1 = n2 := by
  have hp : (n1 ++ str " >") <+: (n2 ++ str " >") :=
    List.prefix_of_prefix_length_le p1 p2
      (by simp only [List.length_append, str_sep_length]; omega)
  rcases Nat.lt_or_ge n2.length (n1.length + 2) with hlt | hge
  · rcases Nat.eq_or_lt_of_le hle with heq | hlt1
    · have hEq : n1 ++ str " >" = n2 ++ str " >" :=
        hp.eq_of_length (by simp only [List.length_append, heq])
      exact ( List.append_inj' hEq rfl).1
    · exfalso
      obtain ⟨t, ht⟩ := hp
      have htlen : t.length = 1 := by
        have hl := congrArg List.length ht
        simp only [List.length_append, str_sep_length] at hl
        omega
      obtain ⟨d, rfl⟩ := List.length_eq_one.mp htlen
      have hms : str " >" = [' ', '>'] := rfl
      rw [hms] at ht
      have h1' : (n1 ++ [' ', '>']) ++ [d] = (n2 ++ [' ']) ++ ['>'] := by
        rw [ht]; simp
      have e1 := List.append_inj' h1' rfl
      have h2' : (n1 ++ [' ']) ++ ['>'] = n2 ++ [' '] := by
        rw [← e1.1]; simp
      have e2 := List.append_inj' h2' rfl
      exact absurd e2.2 (by decide)
  · exfalso
    have hpn2 : (n1 ++ str " >") <+: n2 :=
      List.prefix_of_prefix_length_le hp ( List.prefix_append n2 (str " >"))
        (by simp only [List.length_append, str_sep_length]; omega)
    obtain ⟨r, hr⟩ := hpn2
    exact h2 ⟨n1, r, hr⟩

/-- Marker disambiguation: among separator-free names, at most one marker
can open a given content. -/
theorem marker_unamb (n1 n2 c : Str)
    (h1 : ¬ (str " >") <:+: n1) (h2 : ¬ (str " >") <:+: n2)
    (p1 : (n1 ++ str " >") <+: c) (p2 : (n2 ++ str " >") <+: c) :
    n1 = n2 := by
  rcases Nat.le_total n1.length n2.length with h | h
  · exact marker_unamb_le n1 n2 c h2 h p1 p2
  · exact (marker_unamb_le n2 n1 c h1 h p2 p1).symm

/-- A successful agent_map lookup returns a member of the list carrying the
looked-up name. -/
theorem agentMapGet_some {agents : List Agent} {n : Str} {b : Agent}
    (h : agentMapGet agents n = some b) : b ∈ agents ∧ b.name = n := by
  induction agents with
  | nil => simp [agentMapGet] at h
  | cons a t ih =>
    simp only [agentMapGet] at h
    cases hrec : agentMapGet t n with
    | some x =>
      simp only [hrec, Option.some.injEq] at h
      subst h
      have hx := ih hrec
      exact ⟨List.mem_cons_of_mem a hx.1, hx.2⟩
    | none =>
      simp only [hrec] at h
      split at h
      · next hn =>
        simp only [Option.some.injEq] at h
        subst h
        exact ⟨List.mem_cons_self a t, hn⟩
      · simp at h

/-- When some agent carries the looked-up name, agent_map lookup succeeds
with an agent of that name. -/
theorem agentMapGet_present {agents : List Agent} {n : Str}
    (h : ∃ a ∈ agents, a.name = n) :
    ∃ b, agentMapGet agents n = some b ∧ b.name = n := by
  induction agents with
  | nil => simp at h
  | cons a t ih =>
    simp only [agentMapGet]
    cases hrec : agentMapGet t n with
    | some x => exact ⟨x, rfl, (agentMapGet_some hrec).2⟩
    | none =>
      simp only [hrec]
      obtain ⟨y, hy, hyn⟩ := h
      rcases List.mem_cons.mp hy with rfl | hyt
      · exact ⟨y, by simp [hyn], hyn⟩
      · obtain ⟨b, hb, hbn⟩ := ih ⟨y, hyt, hyn⟩
        simp [hrec] at hb

/-- agent_map lookup either fails or returns a member of the list. -/
theorem agentMapGet_cases (agents : List Agent) (nm : Str) :
    agentMapGet agents nm = none ∨
      ∃ a ∈ agents, agentMapGet agents nm = some a := by
  cases h : agentMapGet agents nm with
  | none => exact Or.inl rfl
  | some b => exact Or.inr ⟨b, (agentMapGet_some h).1, rfl⟩

/-- Lookup of a name carried by no agent fails. -/
theorem agentMapGet_eq_none {agents : List Agent} {n : Str}
    (h : ∀ a ∈ agents, a.name ≠ n) : agentMapGet agents n = none := by
  induction agents with
  | nil => rfl
  | cons a t ih =>
    simp only [agentMapGet]
    rw [ih fun x hx => h x (List.mem_cons_of_mem a hx)]
    simp [h a (List.mem_cons_self a t)]

/-- On a duplicate-free list, pyIndex of the element at position i is i. -/
theorem pyIndex_get_of_nodup :
    ∀ (P : List Str), P.Nodup → ∀ (i : Nat) (hi : i < P.length),
      pyIndex (P.get ⟨i, hi⟩) P = some i := by
  intro P
  induction P with
  | nil => intro _ i hi; simp at hi
  | cons y t ih =>
    intro hnd i hi
    match i with
    | 0 => simp [pyIndex]
    | j + 1 =>
      have hj : j < t.length := by simpa using hi
      have hyne : ¬ y = t.get ⟨j, hj⟩ := by
        intro hEq
        exact (List.nodup_cons.mp hnd).1 (hEq ▸ List.get_mem t j hj)
      simp only [List.get_cons_succ, pyIndex]
      rw [if_neg hyne, ih (List.nodup_cons.mp hnd).2 j hj]
      rfl

/-- pyIndex of an absent element fails, the image of the ValueError. -/
theorem pyIndex_eq_none {x : Str} :
    ∀ {P : List Str}, (∀ y ∈ P, y ≠ x) → pyIndex x P = none := by
  intro P
  induction P with
  | nil => intro _; rfl
  | cons y t ih =>
    intro h
    simp only [pyIndex]
    rw [if_neg (h y (List.mem_cons_self y t)),
      ih fun z hz => h z (List.mem_cons_of_mem y hz)]
    rfl

/-- Every branch of the initial-query router returns an agent_map lookup. -/
theorem route_initial_query_fst (self : SurveillanceSelectionStrategy)
    (q : Str) (agents : List Agent) :
    ∃ nm, (route_initial_query self q agents).1 = agentMapGet agents nm := by
  simp only [route_initial_query]
  repeat' split
  all_goals exact ⟨_, rfl⟩

/-- The agent-response router returns nothing or an agent_map lookup. -/
theorem route_agent_response_cases (self : SurveillanceSelectionStrategy)
    (r : Str) (agents : List Agent) (h : List Str) :
    route_agent_response self r agents h = none ∨
      ∃ nm, route_agent_response self r agents h = agentMapGet agents nm := by
  rcases hf : (agents.find? fun a => (marker a.name).isPrefixOf r).map Agent.name
    with _ | ca
  · simp only [route_agent_response, hf]
    exact Or.inl trivial
  · simp only [route_agent_response, hf]
    split
    · exact Or.inl rfl
    · rcases hp : pyIndex ca self.agent_sequence with _ | ci
      · simp only [hp]
        exact Or.inl trivial
      · simp only [hp]
        rcases hg : self.agent_sequence[ci + 1]? with _ | nm
        · simp only [hg]
          exact Or.inl trivial
        · simp only [hg]
          exact Or.inr ⟨nm, rfl⟩

/-- One bland call: the acting agent is not terminal and no history entry
contains a completion phrase.  The call increments the counter and
terminates exactly when the incremented counter reaches the maximum. -/
theorem should_terminate_bland (st : SurveillanceTerminationStrategy)
    (a : Agent) (h : List Str)
    (hterm : st.terminal_agents.contains a.name = false)
    (hc : ∀ s ∈ h,
      (completion_indicators.any fun ind => containsSub ind (strLower s)) = false) :
    should_terminate st a h =
      (decide (st.max_iterations ≤ st.iteration_count + 1),
       ⟨st.max_iterations, st.iteration_count + 1, st.terminal_agents⟩) := by
  have hnotmem : ¬ a.name ∈ st.terminal_agents := by simpa using hterm
  by_cases hcap : st.max_iterations ≤ st.iteration_count + 1
  · simp [should_terminate, hcap]
  · cases hg : h.getLast? with
    | none => simp [should_terminate, hcap, hnotmem, hg]
    | some last =>
      have hl := hc last (List.mem_of_getLast?_eq_some hg)
      simp [should_terminate, hcap, hnotmem, hg, hl]

/-- A run of bland calls starting from counter c: the k-th call (0-based)
returns true exactly when its incremented counter reaches the maximum. -/
theorem run_should_terminate_bland (term : List Str) :
    ∀ (inputs : List (Agent × List Str)) (m c : Nat),
      (∀ p ∈ inputs, term.contains p.1.name = false) →
      (∀ p ∈ inputs, ∀ s ∈ p.2,
        (completion_indicators.any fun ind => containsSub ind (strLower s)) = false) →
      run_should_terminate ⟨m, c, term⟩ inputs =
        (List.range inputs.length).map fun k => decide (m ≤ c + k + 1) := by
  intro inputs
  induction inputs with
  | nil => intro m c _ _; rfl
  | cons p rest ih =>
    intro m c h1 h2
    obtain ⟨a, hh⟩ := p
    simp only [run_should_terminate]
    rw [should_terminate_bland ⟨m, c, term⟩ a hh
      (h1 _ (List.mem_cons_self _ _)) (h2 _ (List.mem_cons_self _ _))]
    rw [ih m (c + 1) (fun q hq => h1 q (List.mem_cons_of_mem _ hq))
      (fun q hq => h2 q (List.mem_cons_of_mem _ hq))]
    rw [List.length_cons, List.range_succ_eq_map]
    simp only [List.map_cons, List.map_map]
    refine List.cons_eq_cons.mpr ⟨?_, ?_⟩
    · rw [decide_eq_decide]
    · apply List.map_congr_left
      intro k _
      simp only [Function.comp_apply, Nat.succ_eq_add_one]
      rw [decide_eq_decide]
      omega

/-- Claim C5: with the default configuration, should_terminate returns true on
the very first call of a session whenever the acting agent is the reporting
role, for every history, even though the counter is only 1 and no completion
phrase need be present. -/
theorem C5_reporting_terminates_first_call (agent : Agent) (history : List Str)
    (hname : agent.name = str "REPORTING_AGENT") :
    (should_terminate defaultTermination agent history).1 = true := by
  have hc : ([str "REPORTING_AGENT", str "ASSISTANT_AGENT"] : List Str).contains
      (str "REPORTING_AGENT") = true := by decide
  simp [should_terminate, defaultTermination,
    SurveillanceTerminationStrategy.init, hname, hc]

/-- Witness for C5 at a concrete reporting agent and a benign history. -/
theorem C5_witness :
    (should_terminate defaultTermination ⟨str "REPORTING_AGENT", 0⟩
      [str "benign content"]).1 = true :=
  C5_reporting_terminates_first_call ⟨str "REPORTING_AGENT", 0⟩
    [str "benign content"] rfl

/-- Claim C8: when the last turn carries a known agent-label prefix, next
leaves the stored agent_sequence unchanged. -/
theorem C8_agent_turn_preserves_state (self : SurveillanceSelectionStrategy)
    (agents : List Agent) (history : List Str) (content : Str)
    (hlast : history.getLast? = some content)
    (hagent : is_user_message agents content = false) :
    (self.next agents history).2 = self := by
  simp [SurveillanceSelectionStrategy.next, hlast, hagent]

/-- Witness for C8 at a concrete agent-authored turn. -/
theorem C8_witness :
    ((⟨[str "A"]⟩ : SurveillanceSelectionStrategy).next [⟨str "A", 0⟩]
      [str "A > done"]).2 = ⟨[str "A"]⟩ :=
  C8_agent_turn_preserves_state ⟨[str "A"]⟩ [⟨str "A", 0⟩] [str "A > done"]
    (str "A > done") rfl (by decide)

/-- Claim C9: next is a pure function of the stored pipeline, the agent set
and the last content; histories agreeing on their last turn give the same
returned agent and the same stored pipeline. -/
theorem C9_deterministic (self : SurveillanceSelectionStrategy)
    (agents : List Agent) (h1 h2 : List Str) (content : Str)
    (hl1 : h1.getLast? = some content) (hl2 : h2.getLast? = some content) :
    self.next agents h1 = self.next agents h2 := by
  simp only [SurveillanceSelectionStrategy.next, hl1, hl2]
  cases hu : is_user_message agents content
  · simp [hu, route_agent_response]
  · simp [hu]

/-- Witness for C9 at two histories sharing their last content. -/
theorem C9_witness :
    (⟨[]⟩ : SurveillanceSelectionStrategy).next [⟨str "ASSISTANT_AGENT", 0⟩]
        [str "earlier turn", str "hello"] =
      (⟨[]⟩ : SurveillanceSelectionStrategy).next [⟨str "ASSISTANT_AGENT", 0⟩]
        [str "hello"] :=
  C9_deterministic ⟨[]⟩ [⟨str "ASSISTANT_AGENT", 0⟩]
    [str "earlier turn", str "hello"] [str "hello"] (str "hello") rfl rfl

/-- The disjunction of the five category guards of _route_initial_query, in
source order: a lowercased query matches some keyword category exactly when
this is true. -/
def matched_category (q : Str) : Bool :=
  (hasKeyword full_words q &&
      hasKeyword (prediction_keywords ++ report_keywords) q) ||
    hasKeyword prediction_keywords q || hasKeyword anomaly_keywords q ||
    hasKeyword data_keywords q || hasKeyword alert_keywords q

/-- Claim C2 is false as stated: after a no-category user turn the previously
stored pipeline survives, because the fallback branch never clears it.  Here
the last turn "hello" is user-authored and matches no category, yet the
stored sequence after the call is non-empty. -/
theorem C2_counterexample :
    (is_user_message [⟨str "ASSISTANT_AGENT", 0⟩] (str "hello") = true ∧
      matched_category (strLower (str "hello")) = false ∧
      ((⟨[str "REPORTING_AGENT"]⟩ : SurveillanceSelectionStrategy).next
          [⟨str "ASSISTANT_AGENT", 0⟩] [str "hello"]).1 =
        some ⟨str "ASSISTANT_AGENT", 0⟩) ∧
    ¬ ((⟨[str "REPORTING_AGENT"]⟩ : SurveillanceSelectionStrategy).next
        [⟨str "ASSISTANT_AGENT", 0⟩] [str "hello"]).2.agent_sequence = [] := by
  decide

/-- Claim C2 (amended): for every user-authored last turn matching no keyword
category, next returns the general-purpose lookup and leaves the stored
pipeline exactly as it was; in particular no new pipeline is stored, and an
empty stored pipeline stays empty. -/
theorem C2_fallback_returns_assistant (self : SurveillanceSelectionStrategy)
    (agents : List Agent) (history : List Str) (content : Str)
    (hlast : history.getLast? = some content)
    (huser : is_user_message agents content = true)
    (hnomatch : matched_category (strLower content) = false) :
    (self.next agents history).1 = agentMapGet agents (str "ASSISTANT_AGENT") ∧
    (self.next agents history).2 = self := by
  simp only [matched_category, Bool.or_eq_false_iff] at hnomatch
  obtain ⟨⟨⟨⟨hcomb, hpred⟩, hanom⟩, hdata⟩, halert⟩ := hnomatch
  simp only [SurveillanceSelectionStrategy.next, hlast, huser, if_true,
    route_initial_query, hcomb, hpred, hanom, hdata, halert,
    Bool.false_eq_true, if_false]
  exact ⟨trivial, trivial⟩

/-- Witness for the amended C2 at a concrete no-category query. -/
theorem C2_witness :
    ((SurveillanceSelectionStrategy.init.next [⟨str "ASSISTANT_AGENT", 0⟩]
        [str "hello"]).1 =
      agentMapGet [⟨str "ASSISTANT_AGENT", 0⟩] (str "ASSISTANT_AGENT")) ∧
    ((SurveillanceSelectionStrategy.init.next [⟨str "ASSISTANT_AGENT", 0⟩]
        [str "hello"]).2 = SurveillanceSelectionStrategy.init) :=
  C2_fallback_returns_assistant SurveillanceSelectionStrategy.init
    [⟨str "ASSISTANT_AGENT", 0⟩] [str "hello"] (str "hello")
    rfl (by decide) (by decide)

/-- Claim C3: a user-authored turn whose lowercased content contains a
breadth qualifier and a forecasting or reporting keyword routes to the
data-collection agent and stores the 5-stage comprehensive pipeline. -/
theorem C3_comprehensive_pipeline (self : SurveillanceSelectionStrategy)
    (agents : List Agent) (history : List Str) (content : Str)
    (hlast : history.getLast? = some content)
    (huser : is_user_message agents content = true)
    (hfull : hasKeyword full_words (strLower content) = true)
    (hpr : hasKeyword (prediction_keywords ++ report_keywords)
      (strLower content) = true)
    (hpresent : ∃ a ∈ agents, a.name = str "DATA_COLLECTION_AGENT") :
    (∃ a, (self.next agents history).1 = some a ∧
        a.name = str "DATA_COLLECTION_AGENT") ∧
    (self.next agents history).2.agent_sequence = comprehensive_sequence := by
  obtain ⟨b, hb, hbn⟩ := agentMapGet_present hpresent
  simp only [SurveillanceSelectionStrategy.next, hlast, huser, if_true,
    route_initial_query, hfull, hpr, Bool.and_self, if_true]
  exact ⟨⟨b, by simp [hb], hbn⟩, trivial⟩

/-- Witness for C3 at the scenario content of the specification. -/
theorem C3_witness :
    (∃ a, ((⟨[]⟩ : SurveillanceSelectionStrategy).next
        [⟨str "DATA_COLLECTION_AGENT", 0⟩]
        [str "Can you give a full comprehensive outbreak forecast report?"]).1 =
          some a ∧ a.name = str "DATA_COLLECTION_AGENT") ∧
    ((⟨[]⟩ : SurveillanceSelectionStrategy).next
        [⟨str "DATA_COLLECTION_AGENT", 0⟩]
        [str "Can you give a full comprehensive outbreak forecast report?"]).2.agent_sequence =
      comprehensive_sequence :=
  C3_comprehensive_pipeline ⟨[]⟩ [⟨str "DATA_COLLECTION_AGENT", 0⟩]
    [str "Can you give a full comprehensive outbreak forecast report?"]
    (str "Can you give a full comprehensive outbreak forecast report?")
    rfl (by decide) (by decide) (by decide)
    ⟨⟨str "DATA_COLLECTION_AGENT", 0⟩, by decide⟩

/-- Claim C6: with a non-terminal acting agent and the just-incremented
counter still below the maximum, should_terminate returns true exactly when
the lowercased last content contains one of the completion phrases. -/
theorem C6_completion_phrase_iff (st : SurveillanceTerminationStrategy)
    (agent : Agent) (history : List Str) (content : Str)
    (hlast : history.getLast? = some content)
    (hterm : st.terminal_agents.contains agent.name = false)
    (hcap : st.iteration_count + 1 < st.max_iterations) :
    ((should_terminate st agent history).1 = true ↔
      (completion_indicators.any fun ind =>
        containsSub ind (strLower content)) = true) := by
  have hnle : ¬ st.max_iterations ≤ st.iteration_count + 1 := by omega
  have hnotmem : ¬ agent.name ∈ st.terminal_agents := by simpa using hterm
  cases hmatch : completion_indicators.any fun ind =>
      containsSub ind (strLower content)
  · simp [should_terminate, hlast, hnotmem, hnle, hmatch]
  · simp [should_terminate, hlast, hnotmem, hnle, hmatch]

/-- Witness for C6 at the scenario content: the data-collection agent is not
terminal, yet the completion phrases fire. -/
theorem C6_witness :
    (should_terminate defaultTermination ⟨str "DATA_COLLECTION_AGENT", 0⟩
      [str "DATA_COLLECTION_AGENT > Report generated successfully. Download URL: ..."]).1 =
      true :=
  (C6_completion_phrase_iff defaultTermination ⟨str "DATA_COLLECTION_AGENT", 0⟩
    [str "DATA_COLLECTION_AGENT > Report generated successfully. Download URL: ..."]
    (str "DATA_COLLECTION_AGENT > Report generated successfully. Download URL: ...")
    rfl (by decide) (by decide)).mpr (by decide)

/-- Claim C7: every fail-soft path of the selector yields the plain value
none rather than an error.  The four conjuncts cover an empty history, a
lookup of an unknown agent name over the agent set, a missing stored
pipeline on an agent-authored turn, and an acting agent absent from the
stored pipeline (the image of the swallowed ValueError). -/
theorem C7_fail_soft :
    (∀ (self : SurveillanceSelectionStrategy) (agents : List Agent),
        self.next agents [] = (none, self)) ∧
    (∀ (agents : List Agent) (n : Str), (∀ a ∈ agents, a.name ≠ n) →
        agentMapGet agents n = none) ∧
    (∀ (self : SurveillanceSelectionStrategy) (agents : List Agent)
        (history : List Str) (content : Str),
        history.getLast? = some content →
        is_user_message agents content = false →
        self.agent_sequence = [] →
        (self.next agents history).1 = none) ∧
    (∀ (self : SurveillanceSelectionStrategy) (agents : List Agent)
        (history : List Str) (content : Str) (ca : Str),
        history.getLast? = some content →
        is_user_message agents content = false →
        ((agents.find? fun a => (marker a.name).isPrefixOf content).map
          Agent.name = some ca) →
        pyIndex ca self.agent_sequence = none →
        (self.next agents history).1 = none) := by
  refine ⟨fun self agents => rfl,
    fun agents n h => agentMapGet_eq_none h, ?_, ?_⟩
  · intro self agents history content hlast huser hseq
    rcases hf : (agents.find? fun a => (marker a.name).isPrefixOf content).map
        Agent.name with _ | ca
    · simp [SurveillanceSelectionStrategy.next, hlast, huser,
        route_agent_response, hf]
    · simp [SurveillanceSelectionStrategy.next, hlast, huser,
        route_agent_response, hf, hseq]
  · intro self agents history content ca hlast huser hfind hidx
    simp only [SurveillanceSelectionStrategy.next, hlast, huser,
      Bool.false_eq_true, if_false, route_agent_response, hfind]
    by_cases hz : ca = [] ∨ self.agent_sequence = []
    · simp [hz]
    · simp [hz, hidx]

/-- Witness for C7: concrete instances of its four fail-soft paths. -/
theorem C7_witness :
    (SurveillanceSelectionStrategy.init.next [] [] =
      (none, SurveillanceSelectionStrategy.init)) ∧
    (agentMapGet [⟨str "A", 0⟩] (str "B") = none) ∧
    (((⟨[]⟩ : SurveillanceSelectionStrategy).next [⟨str "A", 0⟩]
        [str "A > done"]).1 = none) ∧
    (((⟨[str "C"]⟩ : SurveillanceSelectionStrategy).next [⟨str "A", 0⟩]
        [str "A > done"]).1 = none) :=
  ⟨C7_fail_soft.1 SurveillanceSelectionStrategy.init [],
   C7_fail_soft.2.1 [⟨str "A", 0⟩] (str "B") (by decide),
   C7_fail_soft.2.2.1 ⟨[]⟩ [⟨str "A", 0⟩] [str "A > done"] (str "A > done")
     rfl (by decide) rfl,
   C7_fail_soft.2.2.2 ⟨[str "C"]⟩ [⟨str "A", 0⟩] [str "A > done"]
     (str "A > done") (str "A") rfl (by decide) (by decide) (by decide)⟩

/-- Claim C10: next returns none or a member of the supplied agents list,
and with an empty agents list it returns none on every history, including
histories whose last turn carries an agent-label prefix. -/
theorem C10_result_from_agent_list :
    (∀ (self : SurveillanceSelectionStrategy) (agents : List Agent)
        (history : List Str),
        (self.next agents history).1 = none ∨
          ∃ a ∈ agents, (self.next agents history).1 = some a) ∧
    (∀ (self : SurveillanceSelectionStrategy) (history : List Str),
        (self.next [] history).1 = none) := by
  constructor
  · intro self agents history
    cases hlast : history.getLast? with
    | none => exact Or.inl (by simp [SurveillanceSelectionStrategy.next, hlast])
    | some content =>
      cases hu : is_user_message agents content with
      | true =>
        obtain ⟨nm, hnm⟩ := route_initial_query_fst self content agents
        rcases agentMapGet_cases agents nm with hnone | ⟨a, ha, hsome⟩
        · exact Or.inl (by
            simp [SurveillanceSelectionStrategy.next, hlast, hu, hnm, hnone])
        · exact Or.inr ⟨a, ha, by
            simp [SurveillanceSelectionStrategy.next, hlast, hu, hnm, hsome]⟩
      | false =>
        rcases route_agent_response_cases self content agents history
          with hnone | ⟨nm, hnm⟩
        · exact Or.inl (by
            simp [SurveillanceSelectionStrategy.next, hlast, hu, hnone])
        · rcases agentMapGet_cases agents nm with h0 | ⟨a, ha, hsome⟩
          · exact Or.inl (by
              simp [SurveillanceSelectionStrategy.next, hlast, hu, hnm, h0])
          · exact Or.inr ⟨a, ha, by
              simp [SurveillanceSelectionStrategy.next, hlast, hu, hnm, hsome]⟩
  · intro self history
    cases hlast : history.getLast? with
    | none => simp [SurveillanceSelectionStrategy.next, hlast]
    | some content =>
      have hu : is_user_message [] content = true := by simp [is_user_message]
      obtain ⟨nm, hnm⟩ := route_initial_query_fst self content []
      simp [SurveillanceSelectionStrategy.next, hlast, hu, hnm, agentMapGet]

/-- Claim C4: over any run of bland calls (never a terminal agent, no
completion phrase anywhere in the presented histories) with the default
maximum of 10, the k-th call (1-based) returns true exactly when k reaches
10: calls 1 through 9 return false, call 10 and every later call return
true, so the driver loop cannot pass the cap. -/
theorem C4_iteration_cap (inputs : List (Agent × List Str))
    (hterm : ∀ p ∈ inputs,
      (defaultTermination.terminal_agents).contains p.1.name = false)
    (hcontent : ∀ p ∈ inputs, ∀ s ∈ p.2,
      (completion_indicators.any fun ind => containsSub ind (strLower s)) = false) :
    run_should_terminate defaultTermination inputs =
      (List.range inputs.length).map fun k => decide (10 ≤ k + 1) := by
  have h := run_should_terminate_bland
    [str "REPORTING_AGENT", str "ASSISTANT_AGENT"] inputs 10 0 hterm hcontent
  simpa [defaultTermination, SurveillanceTerminationStrategy.init] using h

/-- Eleven bland calls: a non-terminal agent and content free of completion
phrases, presented to should_terminate eleven times in a row. -/
def c4_inputs : List (Agent × List Str) :=
  List.replicate 11 (⟨str "DATA_COLLECTION_AGENT", 0⟩, [str "still working"])

/-- Witness for C4: on eleven bland calls the results are nine times false
followed by true on calls 10 and 11. -/
theorem C4_witness :
    run_should_terminate defaultTermination c4_inputs =
      (List.range c4_inputs.length).map fun k => decide (10 ≤ k + 1) :=
  C4_iteration_cap c4_inputs (by decide) (by decide)

/-- Claim C1 is false as literally stated: with the stored pipeline
["A > B", "X"], duplicate-free and fully present in the agent set, and a
last turn opening with the marker of pipeline entry 0 ("A > B >"), next
returns none instead of the agent named "X", because the marker scan first
matches the unrelated agent named "A", whose marker "A >" also opens the
content. -/
theorem C1_counterexample :
    (([str "A > B", str "X"] : List Str).Nodup ∧
      (∀ n ∈ ([str "A > B", str "X"] : List Str),
        ∃ a ∈ [Agent.mk (str "A") 0, Agent.mk (str "A > B") 0,
            Agent.mk (str "X") 0], a.name = n) ∧
      0 + 1 < ([str "A > B", str "X"] : List Str).length ∧
      (([str "A > B", str "X"] : List Str).get ⟨0, by decide⟩ ++
        str " >").isPrefixOf (str "A > B > step done") = true) ∧
    ((SurveillanceSelectionStrategy.mk [str "A > B", str "X"]).next
        [Agent.mk (str "A") 0, Agent.mk (str "A > B") 0, Agent.mk (str "X") 0]
        [str "A > B > step done"]).1 = none := by
  decide

/-- Claim C1 (amended): the routing law holds once the marker convention is
unambiguous, i.e. every pipeline identity is a non-empty string and no
agent name contains the separator " >".  With a stored duplicate-free
pipeline whose identities are all present in the agent set, a last turn
opening with the marker of the entry at position i makes next return the
agent named at position i+1, and no agent when position i is the last. -/
theorem C1_pipeline_step (self : SurveillanceSelectionStrategy)
    (agents : List Agent) (history : List Str) (content : Str) (i : Nat)
    (hi : i < self.agent_sequence.length)
    (hnodup : self.agent_sequence.Nodup)
    (hpres : ∀ n ∈ self.agent_sequence, ∃ a ∈ agents, a.name = n)
    (hclean : ∀ a ∈ agents, containsSub (str " >") a.name = false)
    (hnonnil : ∀ n ∈ self.agent_sequence, n ≠ [])
    (hlast : history.getLast? = some content)
    (hpref : (self.agent_sequence.get ⟨i, hi⟩ ++ str " >") <+: content) :
    ((self.next agents history).1).map Agent.name =
      self.agent_sequence[i + 1]? := by
  have hgetmem := List.get_mem self.agent_sequence i hi
  obtain ⟨api, hapimem, hapiname⟩ := hpres _ hgetmem
  have hclean_to_inf : ∀ a ∈ agents, ¬ (str " >") <:+: a.name := by
    intro a ha hinf
    have hcc := (containsSub_iff (str " >") a.name).mpr hinf
    rw [hclean a ha] at hcc
    cases hcc
  have hany : (agents.any fun a => (marker a.name).isPrefixOf content) = true := by
    rw [List.any_eq_true]
    refine ⟨api, hapimem, ?_⟩
    rw [ List.isPrefixOf_iff_prefix, marker, hapiname]
    exact hpref
  have huser : is_user_message agents content = false := by
    simp [is_user_message, hany]
  have hfindsome : (agents.find? fun a =>
      (marker a.name).isPrefixOf content).isSome := by
    rw [List.find?_isSome]
    refine ⟨api, hapimem, ?_⟩
    rw [ List.isPrefixOf_iff_prefix, marker, hapiname]
    exact hpref
  obtain ⟨b, hb⟩ := Option.isSome_iff_exists.mp hfindsome
  have hbmem := List.mem_of_find?_eq_some hb
  have hbpred := List.find?_some hb
  have hbpref : (b.name ++ str " >") <+: content := by
    rw [ List.isPrefixOf_iff_prefix] at hbpred
    exact hbpred
  have hbname : b.name = self.agent_sequence.get ⟨i, hi⟩ :=
    marker_unamb b.name (self.agent_sequence.get ⟨i, hi⟩) content
      (hclean_to_inf b hbmem) (hapiname ▸ hclean_to_inf api hapimem)
      hbpref hpref
  have hff : ¬ (self.agent_sequence.get ⟨i, hi⟩ = [] ∨
      self.agent_sequence = []) := by
    push_neg
    exact ⟨hnonnil _ hgetmem,
      List.ne_nil_of_length_pos (Nat.lt_of_le_of_lt (Nat.zero_le i) hi)⟩
  simp only [SurveillanceSelectionStrategy.next, hlast, huser,
    Bool.false_eq_true, if_false]
  simp only [route_agent_response, hb, Option.map_some', hbname,
    if_neg hff, pyIndex_get_of_nodup self.agent_sequence hnodup i hi]
  cases hg : self.agent_sequence[i + 1]? with
  | none => simp
  | some nxt =>
    have hnmem : nxt ∈ self.agent_sequence := by
      obtain ⟨hlt, hEq⟩ := List.getElem?_eq_some_iff.mp hg
      exact hEq ▸ List.getElem_mem hlt
    obtain ⟨b2, hb2, hb2n⟩ := agentMapGet_present (hpres nxt hnmem)
    simp [hb2, hb2n]

/-- Witness for the amended C1: a clean two-stage pipeline steps from its
first to its second agent. -/
theorem C1_witness :
    (((SurveillanceSelectionStrategy.mk
        [str "DATA_COLLECTION_AGENT", str "REPORTING_AGENT"]).next
        [⟨str "DATA_COLLECTION_AGENT", 0⟩, ⟨str "REPORTING_AGENT", 0⟩]
        [str "hello", str "DATA_COLLECTION_AGENT > data gathered"]).1).map
      Agent.name =
      ([str "DATA_COLLECTION_AGENT", str "REPORTING_AGENT"] : List Str)[0 + 1]? :=
  C1_pipeline_step
    (SurveillanceSelectionStrategy.mk
      [str "DATA_COLLECTION_AGENT", str "REPORTING_AGENT"])
    [⟨str "DATA_COLLECTION_AGENT", 0⟩, ⟨str "REPORTING_AGENT", 0⟩]
    [str "hello", str "DATA_COLLECTION_AGENT > data gathered"]
    (str "DATA_COLLECTION_AGENT > data gathered") 0
    (by decide) (by decide) (by decide) (by decide) (by decide)
    (by decide) (by decide)
